import Mathlib

/-!
Verification development for the momentum/MACD stock bot (`src/index.js`).

The source file concatenates three bot variants:
* a MACD-cross bot (indicator pipeline `emaSeries`/`macdSeries`, the
  `MACDAnalyzer`, the per-ticker alert gate `canAlert`/`recordAlert`, and the
  scan loop around `runScanOnce`/`startLoop`);
* two near-identical momentum-scanner variants (`RateLimiter` with backoff,
  `MomentumScanner.checkMomentum`, `canSendAlert`, `resetDailyCounters`).

JavaScript numbers are embedded as `ℚ`, `null` as `Option.none`, timestamps
(`Date.now()`, millisecond integers) as `ℤ`, calendar-day keys
(`toDateString()`) as `ℤ`, tickers as `String`.  Mutable per-ticker `Map`s
become function-valued fields with the map's default (`get(t) || 0` becomes a
total `ℕ`-valued function, `get(t)` with an undefined-check becomes an
`Option`-valued function).
-/

namespace MomentumStockBot

/-! ## Indicator engine (src/index.js lines 29-31, 161-203) -/

def MACD_FAST : ℕ := 12
def MACD_SLOW : ℕ := 26
def MACD_SIGNAL : ℕ := 9

/-- The running-EMA loop of `emaSeries`: `prev = values[i] * k + prev * (1 - k)`,
collecting each updated `prev` (the body of the `for` loop at lines 181-184). -/
def emaFrom (k : ℚ) : ℚ → List ℚ → List ℚ
  | _, [] => []
  | prev, x :: xs => (x * k + prev * (1 - k)) :: emaFrom k (x * k + prev * (1 - k)) xs

/-- `emaSeries(values, period)` (lines 173-186): an array aligned with `values`,
`null` before index `period - 1`, the simple average of the first `period`
values at index `period - 1`, then the EMA recurrence with `k = 2/(period+1)`. -/
def emaSeries (values : List ℚ) (period : ℕ) : List (Option ℚ) :=
  if values.length < period then List.replicate values.length none
  else
    let seed : ℚ := (values.take period).sum / (period : ℚ)
    let k : ℚ := 2 / ((period : ℚ) + 1)
    List.replicate (period - 1) none ++
      some seed :: (emaFrom k seed (values.drop period)).map some

structure MacdObj where
  macd : List (Option ℚ)
  signal : List (Option ℚ)
  hist : List (Option ℚ)
  deriving Repr

/-- The `macd` local of `macdSeries` (lines 189-196):
`macd[i] = fast[i] - slow[i]` where both EMAs are non-null, else `null`. -/
def macdLine (closePrices : List ℚ) : List (Option ℚ) :=
  List.zipWith
    (fun f s => match f, s with
      | some a, some b => some (a - b)
      | _, _ => none)
    (emaSeries closePrices MACD_FAST) (emaSeries closePrices MACD_SLOW)

/-- The `signal` local of `macdSeries` (lines 197-200): substitute `0` for the
`null` entries of `macd` (`macd.map(v => v === null ? 0 : v)`), run
`emaSeries` over that zero-filled array, and mask the result back to `null`
exactly where `macd` is `null`. -/
def signalLine (closePrices : List ℚ) : List (Option ℚ) :=
  List.zipWith
    (fun v m => match m with
      | some _ => v
      | none => none)
    (emaSeries ((macdLine closePrices).map (fun v => v.getD 0)) MACD_SIGNAL)
    (macdLine closePrices)

/-- The `hist` local of `macdSeries` (line 201): `macd - signal` where both
are non-null, else `null`. -/
def histLine (closePrices : List ℚ) : List (Option ℚ) :=
  List.zipWith
    (fun v s => match v, s with
      | some a, some b => some (a - b)
      | _, _ => none)
    (macdLine closePrices) (signalLine closePrices)

/-- `macdSeries(closePrices)` (lines 187-203), assembling the three locals. -/
def macdSeries (closePrices : List ℚ) : MacdObj :=
  { macd := macdLine closePrices
    signal := signalLine closePrices
    hist := histLine closePrices }

/-- Modelled from the spec (§4.1), for comparison with `macdSeries` on claim C1:
the signal line as the spec describes it — the EMA (period `MACD_SIGNAL`,
seeded by the simple average of the first `MACD_SIGNAL` defined values)
computed only over the contiguous defined region of the MACD line, with
undefined MACD indices treated as not-yet-started, never substituted by zero. -/
def signalSpec (closePrices : List ℚ) : List (Option ℚ) :=
  let macd := (macdSeries closePrices).macd
  let lead := (macd.takeWhile (fun v => v.isNone)).length
  List.replicate lead none ++ emaSeries ((macd.drop lead).filterMap id) MACD_SIGNAL

inductive Cross where
  | bullish
  | bearish
  deriving DecidableEq, Repr

/-- The analyzer result record built at lines 342-355 (`cross`, `macdNow`,
`signalNow`, `histNow`, `histPrev`, latest/previous close, and the index
`idx` of the latest bar with non-null MACD and signal). -/
structure AnalyzerRes where
  cross : Option Cross
  macdNow : Option ℚ
  signalNow : Option ℚ
  histNow : Option ℚ
  histPrev : Option ℚ
  price : ℚ
  prevPrice : ℚ
  idx : ℕ
  deriving Repr

/-- The downward search loop at lines 309-310:
`while (idx >= 0 && (macd[idx] === null || signal[idx] === null)) idx--`,
returning the index it stops at (`none` when the loop runs past index 0). -/
def findLastBoth (macd signal : List (Option ℚ)) : ℕ → Option ℕ
  | 0 =>
    if (macd.getD 0 none).isSome && (signal.getD 0 none).isSome then some 0 else none
  | i + 1 =>
    if (macd.getD (i + 1) none).isSome && (signal.getD (i + 1) none).isSome then some (i + 1)
    else findLastBoth macd signal i

/-- `MACDAnalyzer.analyzeTicker` after a successful fetch (lines 299-356):
`null` for histories shorter than `MACD_SLOW + MACD_SIGNAL + 2`; otherwise
find the last index `idx` where both MACD and signal are non-null (`null`
result if `idx < 1`), detect a cross between `idx - 1` and `idx` (only when
all four values are non-null), and package the result. -/
def analyzeCore (closes : List ℚ) : Option AnalyzerRes :=
  if closes.length < MACD_SLOW + MACD_SIGNAL + 2 then none
  else
    let m := macdSeries closes
    match findLastBoth m.macd m.signal (m.macd.length - 1) with
    | none => none
    | some idx =>
      if idx < 1 then none
      else
        let cross : Option Cross :=
          match m.macd.getD (idx - 1) none, m.signal.getD (idx - 1) none,
              m.macd.getD idx none, m.signal.getD idx none with
          | some macdPrev, some signalPrev, some macdNow, some signalNow =>
            if macdPrev < signalPrev ∧ macdNow > signalNow then some Cross.bullish
            else if macdPrev > signalPrev ∧ macdNow < signalNow then some Cross.bearish
            else none
          | _, _, _, _ => none
        some { cross := cross
               macdNow := m.macd.getD idx none
               signalNow := m.signal.getD idx none
               histNow := m.hist.getD idx none
               histPrev := m.hist.getD (idx - 1) none
               price := closes.getD idx 0
               prevPrice := closes.getD (idx - 1) 0
               idx := idx }

/-- The per-symbol filter chain of `runScanOnce` (lines 404-461), as the
predicate "this iteration reaches `channel.send`": skip when the analyzer
returned `null`, skip when there is no cross, skip when `canAlert` denied
(`allow`), skip non-bullish crosses, skip unless the histogram strictly rose
(`res.histNow > res.histPrev`, JavaScript coercing `null` to `0`), skip
unless the latest close strictly exceeds the previous one. -/
def emitsAlert (closes : List ℚ) (allow : Bool) : Bool :=
  match analyzeCore closes with
  | none => false
  | some res =>
    match res.cross with
    | none => false
    | some c =>
      if allow = false then false
      else
        match c with
        | Cross.bearish => false
        | Cross.bullish =>
          decide (res.histNow.getD 0 > res.histPrev.getD 0) &&
            decide (res.price > res.prevPrice)

/-- The cross reported by the analyzer for a history (`none` both when the
analyzer returns `null` and when it reports no cross). -/
def crossOf (closes : List ℚ) : Option Cross :=
  match analyzeCore closes with
  | none => none
  | some res => res.cross

/-- The analyzer ran and reported a bullish cross. -/
def isBullishAt (closes : List ℚ) : Bool :=
  match analyzeCore closes with
  | none => false
  | some res => decide (res.cross = some Cross.bullish)

/-- The analyzer ran and its histogram strictly rose between the last two
indices (with the JavaScript `null`-to-`0` coercion of `>`). -/
def histRising (closes : List ℚ) : Bool :=
  match analyzeCore closes with
  | none => false
  | some res => decide (res.histNow.getD 0 > res.histPrev.getD 0)

/-- The analyzer ran and the latest close strictly exceeds the previous one. -/
def priceRising (closes : List ℚ) : Bool :=
  match analyzeCore closes with
  | none => false
  | some res => decide (res.price > res.prevPrice)

/-- A concrete 37-bar price history (the minimum length accepted by
`analyzeTicker`): closes 1, 2, ..., 37. -/
def closes37 : List ℚ :=
  [1, 2, 3, 4, 5, 6, 7, 8, 9, 10, 11, 12, 13, 14, 15, 16, 17, 18, 19, 20,
   21, 22, 23, 24, 25, 26, 27, 28, 29, 30, 31, 32, 33, 34, 35, 36, 37]

/-! ## Alert gate of the MACD bot (src/index.js lines 25-26, 128-152) -/

def MAX_ALERTS_PER_DAY : ℕ := 20
def ALERT_COOLDOWN_MINUTES : ℚ := 15

/-- The module-level alert state: `lastAlertAt` (ticker → timestamp ms),
`dailyAlerts` (ticker → count, `get(t) || 0`), and the day key
`lastDailyReset`. -/
structure AlertStore where
  lastAlertAt : String → Option ℤ
  dailyAlerts : String → ℕ
  lastDailyReset : ℤ

def initStore : AlertStore :=
  { lastAlertAt := fun _ => none, dailyAlerts := fun _ => 0, lastDailyReset := 0 }

/-- `resetDailyCounts()` (lines 132-139): when the current day differs from
`lastDailyReset`, clear all daily counters and store the new day key. -/
def resetDailyCounts (s : AlertStore) (today : ℤ) : AlertStore :=
  if today ≠ s.lastDailyReset then
    { s with dailyAlerts := fun _ => 0, lastDailyReset := today }
  else s

/-- `canAlert(ticker)` (lines 141-148), with the daily quota as a parameter
(the source fixes it to `MAX_ALERTS_PER_DAY = 20`): run the lazy daily reset,
deny when the ticker's count reached the quota, allow when `lastAlertAt` is
absent (or `0`, which JavaScript's `if (!last)` also treats as absent), and
otherwise allow iff `(now - last) / 60000 ≥ 15` minutes.  Returns the verdict
together with the (possibly day-rolled) store. -/
def canAlert (maxPerDay : ℕ) (s : AlertStore) (ticker : String) (now today : ℤ) :
    Bool × AlertStore :=
  let s1 := resetDailyCounts s today
  if s1.dailyAlerts ticker ≥ maxPerDay then (false, s1)
  else
    match s1.lastAlertAt ticker with
    | none => (true, s1)
    | some last =>
      if last = 0 then (true, s1)
      else (decide ((((now - last : ℤ)) : ℚ) / 60000 ≥ ALERT_COOLDOWN_MINUTES), s1)

/-- `recordAlert(ticker)` (lines 149-152): store the alert timestamp and
increment the ticker's daily count. -/
def recordAlert (s : AlertStore) (ticker : String) (now : ℤ) : AlertStore :=
  { s with
    lastAlertAt := fun t => if t = ticker then some now else s.lastAlertAt t
    dailyAlerts := fun t => if t = ticker then s.dailyAlerts t + 1 else s.dailyAlerts t }

/-- One `canAlert → recordAlert` cycle (the usage pattern of `runScanOnce`,
lines 418-421 and 451: `recordAlert` is called exactly when `canAlert`
allowed and the send succeeded). -/
def cycleAlert (maxPerDay : ℕ) (s : AlertStore) (ticker : String) (now today : ℤ) :
    Bool × AlertStore :=
  let r := canAlert maxPerDay s ticker now today
  if r.1 then (r.1, recordAlert r.2 ticker now) else r

/-! ## Scan-loop guard of the MACD bot (src/index.js lines 402-479, 539-543)

The module state is the boolean `scanning` (set by `startLoop`, line 466-467)
and the interval handle `loopHandle`; `runScanOnce` passes are started by
`startLoop` (once immediately plus one per timer tick) and by the `scan-now`
interaction handler (line 542), which calls `runScanOnce` unconditionally.
`inFlight` counts the `runScanOnce` passes currently executing (each pass
suspends at its awaited fetches, so passes can interleave on the event loop).
-/

structure BotState where
  scanning : Bool
  loopStarted : Bool
  inFlight : ℕ
  deriving DecidableEq, Repr

inductive ScanEvent where
  | startLoop
  | timerTick
  | scanNow
  | finishScan
  deriving DecidableEq, Repr

/-- One event of the scan orchestration.  `startLoop` returns immediately when
`scanning` is already set, otherwise sets it, registers the interval timer and
starts one pass; a timer tick starts a pass whenever the interval is
registered; the `scan-now` handler starts a pass unconditionally; a pass
finishing decrements the in-flight count. -/
def scanStep (s : BotState) : ScanEvent → BotState
  | ScanEvent.startLoop =>
    if s.scanning then s
    else { s with scanning := true, loopStarted := true, inFlight := s.inFlight + 1 }
  | ScanEvent.timerTick =>
    if s.loopStarted then { s with inFlight := s.inFlight + 1 } else s
  | ScanEvent.scanNow => { s with inFlight := s.inFlight + 1 }
  | ScanEvent.finishScan => { s with inFlight := s.inFlight - 1 }

def initBot : BotState := { scanning := false, loopStarted := false, inFlight := 0 }

def runEvents (events : List ScanEvent) : BotState :=
  events.foldl scanStep initBot

/-! ## Momentum scanner (src/index.js lines 592-599, 724-769) -/

def MIN_VOLUME : ℚ := 500000
def MIN_PRICE_CHANGE : ℚ := 5
def MIN_REL_VOLUME : ℚ := 13 / 10
def MAX_PRICE : ℚ := 1000
def MIN_PRICE : ℚ := 1 / 100
def MAX_ALERTS_PER_STOCK : ℕ := 20

/-- The per-ticker sample built by `StockDataFetcher.getStockData`
(lines 688-695). -/
structure StockData where
  ticker : String
  price : ℚ
  change_pct : ℚ
  volume : ℚ
  rel_volume : ℚ
  deriving Repr

/-- `MomentumScanner.checkMomentum(data)` (lines 761-769): the first failing
threshold determines the reported reason; otherwise accept. -/
def checkMomentum (data : Option StockData) : Bool × String :=
  match data with
  | none => (false, "No data")
  | some d =>
    if d.price > MAX_PRICE then (false, "Price too high")
    else if d.price < MIN_PRICE then (false, "Price too low")
    else if d.volume < MIN_VOLUME then (false, "Volume too low")
    else if |d.change_pct| < MIN_PRICE_CHANGE then (false, "Move too small")
    else if d.rel_volume < MIN_REL_VOLUME then (false, "RelVol too low")
    else (true, "Momentum detected!")

/-- `MomentumScanner`'s alert bookkeeping (lines 727-729): `alertHistory`
(ticker → timestamp), `alertCounter` (ticker → count), `lastReset` day key. -/
structure ScannerStore where
  alertHistory : String → Option ℤ
  alertCounter : String → ℕ
  lastReset : ℤ

/-- `MomentumScanner.resetDailyCounters()` (lines 732-739). -/
def resetDailyCounters (s : ScannerStore) (today : ℤ) : ScannerStore :=
  if today ≠ s.lastReset then
    { s with alertCounter := fun _ => 0, lastReset := today }
  else s

/-- `MomentumScanner.canSendAlert(ticker)` (lines 741-750), quota as a
parameter (the source fixes it to `MAX_ALERTS_PER_STOCK = 20`): lazy daily
reset, deny on quota, deny when an alert history entry exists and
`(now - last) / 60000 < 15`, otherwise allow. -/
def canSendAlert (maxPerStock : ℕ) (s : ScannerStore) (ticker : String) (now today : ℤ) :
    Bool × ScannerStore :=
  let s1 := resetDailyCounters s today
  if s1.alertCounter ticker ≥ maxPerStock then (false, s1)
  else
    match s1.alertHistory ticker with
    | some last =>
      if (((now - last : ℤ)) : ℚ) / 60000 < ALERT_COOLDOWN_MINUTES then (false, s1)
      else (true, s1)
    | none => (true, s1)

/-! ## Backoff rate limiter of the momentum scanner (src/index.js lines 632-663) -/

/-- The backoff `RateLimiter`'s state: `lastRequest` (`null` initially),
`minDelay = 1000` ms, `backoffDelay` (initially 5000 ms), `rateLimited`. -/
structure RateLimiter where
  lastRequest : Option ℤ
  minDelay : ℚ
  backoffDelay : ℚ
  rateLimited : Bool

def RateLimiter.init : RateLimiter :=
  { lastRequest := none, minDelay := 1000, backoffDelay := 5000, rateLimited := false }

/-- `RateLimiter.wait()` (lines 640-653), returning the total milliseconds of
requested sleep together with the updated state.  `now1` is `Date.now()` as
read for the `elapsed` computation, `now2` as stored into `lastRequest`
(both reads happen after the backoff sleep).  When `rateLimited` is set the
gate sleeps `backoffDelay` and clears the flag; then, when a previous request
time exists (JavaScript's `if (this.lastRequest)`, which also skips a `0`
timestamp), it sleeps the remainder of `minDelay`. -/
def RateLimiter.wait (s : RateLimiter) (now1 now2 : ℤ) : ℚ × RateLimiter :=
  let p1 : ℚ × RateLimiter :=
    if s.rateLimited then (s.backoffDelay, { s with rateLimited := false }) else (0, s)
  let sleep2 : ℚ :=
    match p1.2.lastRequest with
    | none => 0
    | some lr =>
      if lr = 0 then 0
      else if ((now1 : ℚ) - (lr : ℚ)) < p1.2.minDelay then p1.2.minDelay - ((now1 : ℚ) - (lr : ℚ))
      else 0
  (p1.1 + sleep2, { p1.2 with lastRequest := some now2 })

/-- `RateLimiter.markRateLimited()` (lines 655-658): set the flag and grow the
backoff to `min(backoffDelay * 1.5, 30000)`. -/
def RateLimiter.markRateLimited (s : RateLimiter) : RateLimiter :=
  { s with rateLimited := true, backoffDelay := min (s.backoffDelay * (3 / 2)) 30000 }

/-- `RateLimiter.reset()` (lines 660-662): restore `backoffDelay` to 5000 ms. -/
def RateLimiter.reset (s : RateLimiter) : RateLimiter :=
  { s with backoffDelay := 5000 }

/-- Both the MACD line and the signal line of `macdSeries closes` carry a
value (are non-`null`) at index `i`. -/
def definedBoth (closes : List ℚ) (i : ℕ) : Prop :=
  ((macdSeries closes).macd.getD i none).isSome = true ∧
    ((macdSeries closes).signal.getD i none).isSome = true

/-! ## Basic lemmas about `emaFrom` and `emaSeries` -/

theorem length_emaFrom (k : ℚ) : ∀ (prev : ℚ) (l : List ℚ), (emaFrom k prev l).length = l.length
  | _, [] => rfl
  | prev, x :: xs => by
    rw [emaFrom, List.length_cons, List.length_cons, length_emaFrom]

theorem emaSeries_of_lt (values : List ℚ) (p : ℕ) (h : values.length < p) :
    emaSeries values p = List.replicate values.length none := by
  rw [emaSeries, if_pos h]

theorem emaSeries_of_le (values : List ℚ) (p : ℕ) (h : p ≤ values.length) :
    emaSeries values p =
      List.replicate (p - 1) none ++
        some ((values.take p).sum / (p : ℚ)) ::
          (emaFrom (2 / ((p : ℚ) + 1)) ((values.take p).sum / (p : ℚ))
            (values.drop p)).map some := by
  rw [emaSeries, if_neg (by omega)]

theorem length_emaSeries (values : List ℚ) (p : ℕ) (h1 : 1 ≤ p) :
    (emaSeries values p).length = values.length := by
  by_cases h : values.length < p
  · rw [emaSeries_of_lt values p h, List.length_replicate]
  · rw [emaSeries_of_le values p (le_of_not_lt h)]
    simp [length_emaFrom]
    omega

theorem getD_none_of_length_le {l : List (Option ℚ)} {i : ℕ} (h : l.length ≤ i) :
    l.getD i none = none := by
  rw [List.getD_eq_getElem?_getD, List.getElem?_eq_none h, Option.getD_none]

theorem replicate_none_getD (m i : ℕ) :
    (List.replicate m (none : Option ℚ)).getD i none = none := by
  rw [List.getD_eq_getElem?_getD, List.getElem?_replicate]
  split <;> rfl

theorem emaSeries_getD_of_lt_seedIdx (values : List ℚ) (p i : ℕ) (hi : i < p - 1) :
    (emaSeries values p).getD i none = none := by
  by_cases h : values.length < p
  · rw [emaSeries_of_lt values p h, replicate_none_getD]
  · rw [emaSeries_of_le values p (le_of_not_lt h), List.getD_eq_getElem?_getD,
      List.getElem?_append_left (by simpa using hi), List.getElem?_replicate, if_pos hi]
    rfl

theorem emaSeries_getD_seed (values : List ℚ) (p : ℕ) (h2 : p ≤ values.length) :
    (emaSeries values p).getD (p - 1) none = some ((values.take p).sum / (p : ℚ)) := by
  rw [emaSeries_of_le values p h2, List.getD_eq_getElem?_getD,
    List.getElem?_append_right (by simp), List.length_replicate, Nat.sub_self,
    List.getElem?_cons_zero]
  rfl

theorem emaSeries_getD_of_ge (values : List ℚ) (p i : ℕ) (h1 : 1 ≤ p) (h2 : p ≤ values.length)
    (hip : p ≤ i) (hin : i < values.length) :
    (emaSeries values p).getD i none =
      some ((emaFrom (2 / ((p : ℚ) + 1)) ((values.take p).sum / (p : ℚ))
        (values.drop p)).getD (i - p) 0) := by
  rw [emaSeries_of_le values p h2, List.getD_eq_getElem?_getD,
    List.getElem?_append_right (by rw [List.length_replicate]; omega), List.length_replicate]
  have hidx : i - (p - 1) = (i - p) + 1 := by omega
  rw [hidx]
  have hlt : i - p < (emaFrom (2 / ((p : ℚ) + 1)) ((values.take p).sum / (p : ℚ))
      (values.drop p)).length := by
    rw [length_emaFrom, List.length_drop]
    omega
  rw [List.getElem?_cons_succ, List.getElem?_map, List.getElem?_eq_getElem hlt]
  rw [List.getD_eq_getElem?_getD, List.getElem?_eq_getElem hlt]
  rfl

theorem emaSeries_getD_isSome (values : List ℚ) (p i : ℕ) (h1 : 1 ≤ p)
    (h2 : p ≤ values.length) (hi1 : p - 1 ≤ i) (hi2 : i < values.length) :
    ((emaSeries values p).getD i none).isSome = true := by
  rcases Nat.lt_or_ge i p with h | h
  · have : i = p - 1 := by omega
    rw [this, emaSeries_getD_seed values p h2]
    rfl
  · rw [emaSeries_getD_of_ge values p i h1 h2 h hi2]
    rfl

theorem emaSeries_getD_none_iff (values : List ℚ) (p i : ℕ) (h1 : 1 ≤ p) :
    (emaSeries values p).getD i none = none ↔
      i < p - 1 ∨ values.length ≤ i ∨ values.length < p := by
  constructor
  · intro h
    by_contra hc
    push_neg at hc
    obtain ⟨hc1, hc2, hc3⟩ := hc
    have := emaSeries_getD_isSome values p i h1 (by omega) (by omega) hc2
    rw [h] at this
    exact Bool.false_ne_true this
  · rintro (h | h | h)
    · exact emaSeries_getD_of_lt_seedIdx values p i h
    · exact getD_none_of_length_le (by rw [length_emaSeries values p h1]; exact h)
    · rw [emaSeries_of_lt values p h, replicate_none_getD]

theorem emaFrom_getD_zero (k prev x : ℚ) (xs : List ℚ) :
    (emaFrom k prev (x :: xs)).getD 0 0 = x * k + prev * (1 - k) := rfl

theorem emaFrom_getD_succ (k : ℚ) :
    ∀ (l : List ℚ) (prev : ℚ) (j : ℕ), j + 1 < l.length →
      (emaFrom k prev l).getD (j + 1) 0 =
        l.getD (j + 1) 0 * k + (emaFrom k prev l).getD j 0 * (1 - k)
  | [], _, _, h => by simp at h
  | x :: xs, prev, 0, h => by
    match xs, h with
    | y :: ys, _ =>
      rw [emaFrom, emaFrom]
      simp
  | x :: xs, prev, j + 1, h => by
    rw [emaFrom]
    have := emaFrom_getD_succ k xs (x * k + prev * (1 - k)) j (by simpa using h)
    simpa using this

theorem emaFrom_const (k v : ℚ) : ∀ (m : ℕ), emaFrom k v (List.replicate m v) = List.replicate m v
  | 0 => rfl
  | m + 1 => by
    rw [List.replicate_succ, emaFrom]
    have hv : v * k + v * (1 - k) = v := by ring
    rw [hv, emaFrom_const k v m]

theorem emaFrom_getD_first (k prev : ℚ) (l : List ℚ) (h : l ≠ []) :
    (emaFrom k prev l).getD 0 0 = l.getD 0 0 * k + prev * (1 - k) := by
  match l, h with
  | x :: xs, _ => rfl

theorem getD_drop (values : List ℚ) (p j : ℕ) :
    (values.drop p).getD j 0 = values.getD (p + j) 0 := by
  rw [List.getD_eq_getElem?_getD, List.getD_eq_getElem?_getD, List.getElem?_drop]

theorem replicate_getD_of_lt (m j : ℕ) (v : ℚ) (h : j < m) :
    (List.replicate m v).getD j 0 = v := by
  rw [List.getD_eq_getElem?_getD, List.getElem?_replicate_of_lt h]
  rfl

/-- C6: for every series and period with `period ≤ length`, the EMA series
value at the seed index `period - 1` equals the simple average of the first
`period` values; each subsequent value equals
`current * k + previous * (1 - k)` with `k = 2 / (period + 1)`; consequently,
for a constant series of value `v` of length at least `period`, the EMA
equals `v` at every defined index. -/
theorem emaSeries_seed_recurrence_const (values : List ℚ) (period : ℕ)
    (h1 : 0 < period) (h2 : period ≤ values.length) :
    (emaSeries values period).getD (period - 1) none
        = some ((values.take period).sum / (period : ℚ)) ∧
    (∀ i, period ≤ i → i < values.length →
      ∃ q, (emaSeries values period).getD (i - 1) none = some q ∧
        (emaSeries values period).getD i none
          = some (values.getD i 0 * (2 / ((period : ℚ) + 1)) +
              q * (1 - 2 / ((period : ℚ) + 1)))) ∧
    (∀ (v : ℚ) (n i : ℕ), period ≤ n → period - 1 ≤ i → i < n →
      (emaSeries (List.replicate n v) period).getD i none = some v) := by
  refine ⟨emaSeries_getD_seed values period h2, ?_, ?_⟩
  · intro i hpi hin
    set k : ℚ := 2 / ((period : ℚ) + 1) with hk
    set seed : ℚ := (values.take period).sum / (period : ℚ) with hseed
    rcases Nat.eq_or_lt_of_le hpi with hip | hip
    · -- the first post-seed index: previous value is the seed itself
      refine ⟨seed, ?_, ?_⟩
      · rw [← hip, emaSeries_getD_seed values period h2]
      · rw [← hip, emaSeries_getD_of_ge values period period h1 h2 le_rfl (hip ▸ hin)]
        have hne : values.drop period ≠ [] := by
          intro hc
          have := congrArg List.length hc
          rw [List.length_drop] at this
          simp at this
          omega
        rw [Nat.sub_self, emaFrom_getD_first _ _ _ hne, getD_drop]
        rw [Nat.add_zero]
    · -- later indices: use the `emaFrom` recurrence
      have hprev : period ≤ i - 1 := by omega
      have hprevlt : i - 1 < values.length := by omega
      refine ⟨(emaFrom k seed (values.drop period)).getD (i - 1 - period) 0, ?_, ?_⟩
      · rw [emaSeries_getD_of_ge values period (i - 1) h1 h2 hprev hprevlt]
      · rw [emaSeries_getD_of_ge values period i h1 h2 hpi hin]
        have hj : i - period = (i - period - 1) + 1 := by omega
        have hrec := emaFrom_getD_succ k (values.drop period) seed (i - period - 1)
          (by rw [List.length_drop]; omega)
        rw [hj, hrec, getD_drop]
        have hidx2 : period + (i - period - 1 + 1) = i := by omega
        have hidx3 : i - 1 - period = i - period - 1 := by omega
        rw [hidx2, hidx3]
  · intro v n i hpn hi1 hin
    have hlen : period ≤ (List.replicate n v).length := by
      rw [List.length_replicate]; exact hpn
    have hseedv : ((List.replicate n v).take period).sum / (period : ℚ) = v := by
      rw [List.take_replicate, Nat.min_eq_left hpn, List.sum_replicate, nsmul_eq_mul]
      exact mul_div_cancel_left₀ v (Nat.cast_ne_zero.mpr (by omega))
    rcases Nat.lt_or_ge i period with h | h
    · have hieq : i = period - 1 := by omega
      rw [hieq, emaSeries_getD_seed _ period hlen, hseedv]
    · rw [emaSeries_getD_of_ge _ period i h1 hlen h (by rw [List.length_replicate]; exact hin)]
      rw [hseedv, List.drop_replicate, emaFrom_const,
        replicate_getD_of_lt (n - period) (i - period) v (by omega)]

/-- Witness for C6 at `values = [1, 2, 3]`, `period = 2`: the hypotheses hold
and the seed value is the average of the first two entries. -/
theorem emaSeries_seed_recurrence_const_inst :
    (emaSeries [(1 : ℚ), 2, 3] 2).getD (2 - 1) none
      = some (([(1 : ℚ), 2, 3].take 2).sum / ((2 : ℕ) : ℚ)) :=
  (emaSeries_seed_recurrence_const [(1 : ℚ), 2, 3] 2 (by omega) (by simp)).1

/-! ## The MACD / signal / histogram lines: lengths and definedness -/

theorem length_macdLine (closes : List ℚ) : (macdLine closes).length = closes.length := by
  rw [macdLine, List.length_zipWith, length_emaSeries _ MACD_FAST (by decide),
    length_emaSeries _ MACD_SLOW (by decide), Nat.min_self]

theorem length_signalLine (closes : List ℚ) : (signalLine closes).length = closes.length := by
  rw [signalLine, List.length_zipWith, length_emaSeries _ MACD_SIGNAL (by decide),
    List.length_map, length_macdLine, Nat.min_self]

theorem length_histLine (closes : List ℚ) : (histLine closes).length = closes.length := by
  rw [histLine, List.length_zipWith, length_macdLine, length_signalLine, Nat.min_self]

theorem macdLine_entry (closes : List ℚ) (i : ℕ) (hi : i < closes.length) :
    (macdLine closes).getD i none =
      match (emaSeries closes MACD_FAST).getD i none,
          (emaSeries closes MACD_SLOW).getD i none with
      | some a, some b => some (a - b)
      | _, _ => none := by
  have hf : i < (emaSeries closes MACD_FAST).length := by
    rw [length_emaSeries _ _ (by decide)]; exact hi
  have hs : i < (emaSeries closes MACD_SLOW).length := by
    rw [length_emaSeries _ _ (by decide)]; exact hi
  rw [macdLine, List.getD_eq_getElem?_getD, List.getElem?_zipWith,
    List.getElem?_eq_getElem hf, List.getElem?_eq_getElem hs,
    List.getD_eq_getElem?_getD, List.getElem?_eq_getElem hf,
    List.getD_eq_getElem?_getD, List.getElem?_eq_getElem hs]
  rfl

theorem signalLine_entry (closes : List ℚ) (i : ℕ) (hi : i < closes.length) :
    (signalLine closes).getD i none =
      match (macdLine closes).getD i none with
      | some _ =>
        (emaSeries ((macdLine closes).map (fun v => v.getD 0)) MACD_SIGNAL).getD i none
      | none => none := by
  have he : i < (emaSeries ((macdLine closes).map (fun v => v.getD 0)) MACD_SIGNAL).length := by
    rw [length_emaSeries _ _ (by decide), List.length_map, length_macdLine]; exact hi
  have hm : i < (macdLine closes).length := by
    rw [length_macdLine]; exact hi
  rw [signalLine, List.getD_eq_getElem?_getD, List.getElem?_zipWith,
    List.getElem?_eq_getElem he, List.getElem?_eq_getElem hm,
    List.getD_eq_getElem?_getD (macdLine closes), List.getElem?_eq_getElem hm,
    List.getD_eq_getElem?_getD, List.getElem?_eq_getElem he]
  rfl

theorem histLine_entry (closes : List ℚ) (i : ℕ) (hi : i < closes.length) :
    (histLine closes).getD i none =
      match (macdLine closes).getD i none, (signalLine closes).getD i none with
      | some a, some b => some (a - b)
      | _, _ => none := by
  have hm : i < (macdLine closes).length := by rw [length_macdLine]; exact hi
  have hs : i < (signalLine closes).length := by rw [length_signalLine]; exact hi
  rw [histLine, List.getD_eq_getElem?_getD, List.getElem?_zipWith,
    List.getElem?_eq_getElem hm, List.getElem?_eq_getElem hs,
    List.getD_eq_getElem?_getD (macdLine closes), List.getElem?_eq_getElem hm,
    List.getD_eq_getElem?_getD (signalLine closes), List.getElem?_eq_getElem hs]
  rfl

theorem macdLine_isSome_iff (closes : List ℚ) (i : ℕ) (hn : MACD_SLOW ≤ closes.length)
    (hi : i < closes.length) :
    ((macdLine closes).getD i none).isSome = true ↔ MACD_SLOW - 1 ≤ i := by
  have hn26 : 26 ≤ closes.length := hn
  rw [macdLine_entry closes i hi]
  constructor
  · intro h
    by_contra hc
    have hlt : i < MACD_SLOW - 1 := by omega
    rw [emaSeries_getD_of_lt_seedIdx closes MACD_SLOW i hlt] at h
    revert h
    cases (emaSeries closes MACD_FAST).getD i none <;> simp
  · intro h
    have h25 : (25 : ℕ) ≤ i := h
    obtain ⟨a, ha⟩ := Option.isSome_iff_exists.mp
      (emaSeries_getD_isSome closes MACD_FAST i (by decide)
        (by show (12 : ℕ) ≤ closes.length; omega) (by show (12 : ℕ) - 1 ≤ i; omega) hi)
    obtain ⟨b, hb⟩ := Option.isSome_iff_exists.mp
      (emaSeries_getD_isSome closes MACD_SLOW i (by decide) hn h hi)
    rw [ha, hb]
    rfl

theorem signalLine_isSome_iff (closes : List ℚ) (i : ℕ) (hn : MACD_SLOW ≤ closes.length)
    (hi : i < closes.length) :
    ((signalLine closes).getD i none).isSome = true ↔ MACD_SLOW - 1 ≤ i := by
  have hn26 : 26 ≤ closes.length := hn
  rw [signalLine_entry closes i hi]
  by_cases h : MACD_SLOW - 1 ≤ i
  · obtain ⟨a, ha⟩ := Option.isSome_iff_exists.mp
      ((macdLine_isSome_iff closes i hn hi).mpr h)
    rw [ha]
    have h25 : (25 : ℕ) ≤ i := h
    have hsig := emaSeries_getD_isSome ((macdLine closes).map (fun v => v.getD 0))
      MACD_SIGNAL i (by decide)
      (by rw [List.length_map, length_macdLine]; show (9 : ℕ) ≤ closes.length; omega)
      (by show (9 : ℕ) - 1 ≤ i; omega)
      (by rw [List.length_map, length_macdLine]; exact hi)
    simp only [hsig]
    simp [h]
  · have hnone : (macdLine closes).getD i none = none := by
      rw [← Option.not_isSome_iff_eq_none]
      intro hs
      exact h ((macdLine_isSome_iff closes i hn hi).mp (by simpa using hs))
    rw [hnone]
    simp [h]

theorem histLine_isSome_iff (closes : List ℚ) (i : ℕ) (hn : MACD_SLOW ≤ closes.length)
    (hi : i < closes.length) :
    ((histLine closes).getD i none).isSome = true ↔ MACD_SLOW - 1 ≤ i := by
  rw [histLine_entry closes i hi]
  by_cases h : MACD_SLOW - 1 ≤ i
  · obtain ⟨a, ha⟩ := Option.isSome_iff_exists.mp ((macdLine_isSome_iff closes i hn hi).mpr h)
    obtain ⟨b, hb⟩ := Option.isSome_iff_exists.mp ((signalLine_isSome_iff closes i hn hi).mpr h)
    rw [ha, hb]
    simp [h]
  · have hnone : (macdLine closes).getD i none = none := by
      rw [← Option.not_isSome_iff_eq_none]
      intro hs
      exact h ((macdLine_isSome_iff closes i hn hi).mp (by simpa using hs))
    rw [hnone]
    simp [h]

theorem definedBoth_iff (closes : List ℚ) (i : ℕ) (hn : MACD_SLOW ≤ closes.length)
    (hi : i < closes.length) :
    definedBoth closes i ↔ MACD_SLOW - 1 ≤ i := by
  unfold definedBoth
  rw [show (macdSeries closes).macd = macdLine closes from rfl,
    show (macdSeries closes).signal = signalLine closes from rfl,
    macdLine_isSome_iff closes i hn hi, signalLine_isSome_iff closes i hn hi, and_self]

/-! ## The analyzer: normal form and cross characterization -/

theorem findLastBoth_at (m s : List (Option ℚ)) (i : ℕ)
    (hm : (m.getD i none).isSome = true) (hs : (s.getD i none).isSome = true) :
    findLastBoth m s i = some i := by
  cases i with
  | zero => rw [findLastBoth, if_pos (by rw [hm, hs]; rfl)]
  | succ j => rw [findLastBoth, if_pos (by rw [hm, hs]; rfl)]

theorem analyzeCore_none_of_short (closes : List ℚ)
    (h : closes.length < MACD_SLOW + MACD_SIGNAL + 2) : analyzeCore closes = none := by
  simp only [analyzeCore]
  rw [if_pos h]

theorem analyzeCore_of_long (closes : List ℚ)
    (hn : MACD_SLOW + MACD_SIGNAL + 2 ≤ closes.length) :
    analyzeCore closes = some
      { cross :=
          match (macdLine closes).getD (closes.length - 1 - 1) none,
              (signalLine closes).getD (closes.length - 1 - 1) none,
              (macdLine closes).getD (closes.length - 1) none,
              (signalLine closes).getD (closes.length - 1) none with
          | some macdPrev, some signalPrev, some macdNow, some signalNow =>
            if macdPrev < signalPrev ∧ macdNow > signalNow then some Cross.bullish
            else if macdPrev > signalPrev ∧ macdNow < signalNow then some Cross.bearish
            else none
          | _, _, _, _ => none
        macdNow := (macdLine closes).getD (closes.length - 1) none
        signalNow := (signalLine closes).getD (closes.length - 1) none
        histNow := (histLine closes).getD (closes.length - 1) none
        histPrev := (histLine closes).getD (closes.length - 1 - 1) none
        price := closes.getD (closes.length - 1) 0
        prevPrice := closes.getD (closes.length - 1 - 1) 0
        idx := closes.length - 1 } := by
  have hn37 : 37 ≤ closes.length := hn
  have hn26 : MACD_SLOW ≤ closes.length := by show (26 : ℕ) ≤ closes.length; omega
  have hfind : findLastBoth (macdLine closes) (signalLine closes)
      ((macdLine closes).length - 1) = some (closes.length - 1) := by
    rw [length_macdLine]
    exact findLastBoth_at _ _ _
      (by
        simpa using (macdLine_isSome_iff closes (closes.length - 1) hn26 (by omega)).mpr
          (by show (26 : ℕ) - 1 ≤ closes.length - 1; omega))
      (by
        simpa using (signalLine_isSome_iff closes (closes.length - 1) hn26 (by omega)).mpr
          (by show (26 : ℕ) - 1 ≤ closes.length - 1; omega))
  simp only [analyzeCore, macdSeries]
  rw [if_neg (by omega), hfind]
  simp only []
  rw [if_neg (by omega)]

theorem crossIf_bullish_iff (mp sp mn sn : ℚ) :
    ((if mp < sp ∧ mn > sn then some Cross.bullish
        else if mp > sp ∧ mn < sn then some Cross.bearish else none)
      = some Cross.bullish) ↔ (mp < sp ∧ mn > sn) := by
  by_cases hA : mp < sp ∧ mn > sn
  · simp [hA]
  · by_cases hB : mp > sp ∧ mn < sn <;> simp [hA, hB]

theorem crossIf_bearish_iff (mp sp mn sn : ℚ) :
    ((if mp < sp ∧ mn > sn then some Cross.bullish
        else if mp > sp ∧ mn < sn then some Cross.bearish else none)
      = some Cross.bearish) ↔ (mp > sp ∧ mn < sn) := by
  by_cases hA : mp < sp ∧ mn > sn
  · have hnB : ¬(mp > sp ∧ mn < sn) := fun hB => (lt_asymm hA.1) hB.1
    simp [hA, hnB]
  · by_cases hB : mp > sp ∧ mn < sn <;> simp [hA, hB]

theorem crossIf_none_iff (mp sp mn sn : ℚ) :
    ((if mp < sp ∧ mn > sn then some Cross.bullish
        else if mp > sp ∧ mn < sn then some Cross.bearish else none)
      = none) ↔ (¬(mp < sp ∧ mn > sn) ∧ ¬(mp > sp ∧ mn < sn)) := by
  by_cases hA : mp < sp ∧ mn > sn
  · simp [hA]
  · by_cases hB : mp > sp ∧ mn < sn <;> simp [hA, hB]

/-- C7: whenever the analyzer returns a result, its `idx` is the last index
where both MACD and signal are defined, `idx - 1` is also such an index, and
the reported cross is bullish iff `macd[idx-1] < signal[idx-1]` and
`macd[idx] > signal[idx]`, bearish iff the inequalities reverse, and absent
iff neither pattern holds; when fewer than two defined indices exist the
analyzer returns no signal (`null`). -/
theorem analyzeTicker_cross_detection :
    (∀ (closes : List ℚ) (r : AnalyzerRes), analyzeCore closes = some r →
      (definedBoth closes r.idx ∧
        ∀ j, r.idx < j → j < closes.length → ¬ definedBoth closes j) ∧
      definedBoth closes (r.idx - 1) ∧
      (r.cross = some Cross.bullish ↔
        ((macdSeries closes).macd.getD (r.idx - 1) none).getD 0
            < ((macdSeries closes).signal.getD (r.idx - 1) none).getD 0 ∧
          ((macdSeries closes).macd.getD r.idx none).getD 0
            > ((macdSeries closes).signal.getD r.idx none).getD 0) ∧
      (r.cross = some Cross.bearish ↔
        ((macdSeries closes).macd.getD (r.idx - 1) none).getD 0
            > ((macdSeries closes).signal.getD (r.idx - 1) none).getD 0 ∧
          ((macdSeries closes).macd.getD r.idx none).getD 0
            < ((macdSeries closes).signal.getD r.idx none).getD 0) ∧
      (r.cross = none ↔
        ¬(((macdSeries closes).macd.getD (r.idx - 1) none).getD 0
            < ((macdSeries closes).signal.getD (r.idx - 1) none).getD 0 ∧
          ((macdSeries closes).macd.getD r.idx none).getD 0
            > ((macdSeries closes).signal.getD r.idx none).getD 0) ∧
        ¬(((macdSeries closes).macd.getD (r.idx - 1) none).getD 0
            > ((macdSeries closes).signal.getD (r.idx - 1) none).getD 0 ∧
          ((macdSeries closes).macd.getD r.idx none).getD 0
            < ((macdSeries closes).signal.getD r.idx none).getD 0))) ∧
    (∀ closes : List ℚ,
      (¬ ∃ i j, i < j ∧ definedBoth closes i ∧ definedBoth closes j) →
      analyzeCore closes = none) := by
  constructor
  · intro closes r h
    have hn : MACD_SLOW + MACD_SIGNAL + 2 ≤ closes.length := by
      rcases Nat.lt_or_ge closes.length (MACD_SLOW + MACD_SIGNAL + 2) with hlt | hge
      · rw [analyzeCore_none_of_short closes hlt] at h
        exact Option.noConfusion h
      · exact hge
    have hn37 : 37 ≤ closes.length := hn
    have hn26 : MACD_SLOW ≤ closes.length := by show (26 : ℕ) ≤ closes.length; omega
    rw [analyzeCore_of_long closes hn] at h
    injection h with h2
    subst h2
    dsimp only
    obtain ⟨mp, hmp⟩ := Option.isSome_iff_exists.mp
      ((macdLine_isSome_iff closes (closes.length - 1 - 1) hn26 (by omega)).mpr
        (by show (26 : ℕ) - 1 ≤ closes.length - 1 - 1; omega))
    obtain ⟨sp, hsp⟩ := Option.isSome_iff_exists.mp
      ((signalLine_isSome_iff closes (closes.length - 1 - 1) hn26 (by omega)).mpr
        (by show (26 : ℕ) - 1 ≤ closes.length - 1 - 1; omega))
    obtain ⟨mn, hmn⟩ := Option.isSome_iff_exists.mp
      ((macdLine_isSome_iff closes (closes.length - 1) hn26 (by omega)).mpr
        (by show (26 : ℕ) - 1 ≤ closes.length - 1; omega))
    obtain ⟨sn, hsn⟩ := Option.isSome_iff_exists.mp
      ((signalLine_isSome_iff closes (closes.length - 1) hn26 (by omega)).mpr
        (by show (26 : ℕ) - 1 ≤ closes.length - 1; omega))
    refine ⟨⟨(definedBoth_iff closes (closes.length - 1) hn26 (by omega)).mpr
        (by show (26 : ℕ) - 1 ≤ closes.length - 1; omega), ?_⟩,
      (definedBoth_iff closes (closes.length - 1 - 1) hn26 (by omega)).mpr
        (by show (26 : ℕ) - 1 ≤ closes.length - 1 - 1; omega), ?_, ?_, ?_⟩
    · intro j hj1 hj2 hd
      omega
    · simp only [macdSeries]
      rw [hmp, hsp, hmn, hsn]
      simp only [Option.getD_some]
      exact crossIf_bullish_iff mp sp mn sn
    · simp only [macdSeries]
      rw [hmp, hsp, hmn, hsn]
      simp only [Option.getD_some]
      exact crossIf_bearish_iff mp sp mn sn
    · simp only [macdSeries]
      rw [hmp, hsp, hmn, hsn]
      simp only [Option.getD_some]
      exact crossIf_none_iff mp sp mn sn
  · intro closes hno
    rcases Nat.lt_or_ge closes.length (MACD_SLOW + MACD_SIGNAL + 2) with hlt | hge
    · exact analyzeCore_none_of_short closes hlt
    · exfalso
      have hn37 : 37 ≤ closes.length := hge
      have hn26 : MACD_SLOW ≤ closes.length := by show (26 : ℕ) ≤ closes.length; omega
      refine hno ⟨closes.length - 1 - 1, closes.length - 1, by omega, ?_, ?_⟩
      · exact (definedBoth_iff closes (closes.length - 1 - 1) hn26 (by omega)).mpr
          (by show (26 : ℕ) - 1 ≤ closes.length - 1 - 1; omega)
      · exact (definedBoth_iff closes (closes.length - 1) hn26 (by omega)).mpr
          (by show (26 : ℕ) - 1 ≤ closes.length - 1; omega)

/-- Witness for C7 at the empty history: no two defined indices exist, and the
analyzer indeed returns no signal. -/
theorem analyzeTicker_cross_detection_inst : analyzeCore [] = none :=
  analyzeTicker_cross_detection.2 []
    (by
      rintro ⟨i, j, -, hd, -⟩
      have : ((macdSeries []).macd.getD i none).isSome = true := hd.1
      rw [getD_none_of_length_le (by simp [macdSeries, length_macdLine])] at this
      exact Bool.false_ne_true this)

/-! ## C1 and C2: the zero-substituted signal line -/

/-- C1 fails on the code: on the 37-bar history `closes37`, the signal line
computed by `macdSeries` (which zero-fills `null` MACD entries before running
the EMA) differs from the spec's signal line `signalSpec` (EMA over the
contiguous defined region only); in particular the code's signal is already
non-`null` at index 25, where the spec's is still undefined. -/
theorem signal_zero_fill_diverges :
    (macdSeries closes37).signal.getD 25 none ≠ (signalSpec closes37).getD 25 none ∧
    (macdSeries closes37).signal ≠ signalSpec closes37 := by decide

/-- C2 fails on the code for the signal/histogram threshold: on the minimal
accepted history `closes37`, signal and histogram are already defined at
index 25, which is before the claimed first defined index
`MACD_SLOW + MACD_SIGNAL - 2 = 33`. -/
theorem signal_hist_defined_before_threshold :
    ((macdSeries closes37).signal.getD 25 none).isSome = true ∧
    ((macdSeries closes37).hist.getD 25 none).isSome = true ∧
    25 < MACD_SLOW + MACD_SIGNAL - 2 ∧
    closes37.length = MACD_SLOW + MACD_SIGNAL + 2 := by decide

/-! ## C3: the scan guard -/

/-- C3 counterexample: starting the loop and then triggering `scan-now` while
the first pass is still in flight yields two concurrent passes — the claimed
invariant "at most one scan runs at a time" fails on this event sequence. -/
theorem scan_guard_counterexample :
    ¬ ((runEvents [ScanEvent.startLoop, ScanEvent.scanNow]).inFlight ≤ 1) := by decide

/-- C3 amended: the `scanning` flag guards only `startLoop` — a second
`startLoop` while the flag is set is a no-op (so at most one periodic loop is
ever started, and the flag equals "the loop is started" along every event
sequence) — but the manual `scan-now` trigger and timer ticks are not guarded:
a `scan-now` during an in-flight scan starts a second concurrent pass. -/
theorem scan_guard_only_guards_startLoop :
    (∀ s : BotState, s.scanning = true → scanStep s ScanEvent.startLoop = s) ∧
    (∀ events : List ScanEvent,
      (runEvents events).scanning = (runEvents events).loopStarted) ∧
    (runEvents [ScanEvent.startLoop, ScanEvent.scanNow]).inFlight = 2 := by
  refine ⟨?_, ?_, by decide⟩
  · intro s h
    rw [scanStep, if_pos h]
  · have inv : ∀ (events : List ScanEvent) (s : BotState),
        s.scanning = s.loopStarted →
        (events.foldl scanStep s).scanning = (events.foldl scanStep s).loopStarted := by
      intro events
      induction events with
      | nil => intro s h; exact h
      | cons e rest ih =>
        intro s h
        rw [List.foldl_cons]
        apply ih
        cases e <;> simp only [scanStep] <;> (try split) <;> simp [h]
    intro events
    exact inv events initBot rfl

/-- Witness for C3's amended claim: a second `startLoop` in a state with the
flag set leaves the state unchanged. -/
theorem scan_guard_only_guards_startLoop_inst :
    scanStep { scanning := true, loopStarted := true, inFlight := 1 } ScanEvent.startLoop
      = { scanning := true, loopStarted := true, inFlight := 1 } :=
  scan_guard_only_guards_startLoop.1 { scanning := true, loopStarted := true, inFlight := 1 } rfl

/-! ## C4: bullish-only confirmation in the scan pass -/

/-- C4: an iteration of `runScanOnce` reaches `channel.send` exactly when the
alert gate allowed, the analyzer reported a bullish cross, the histogram
strictly rose between the last two defined indices, and the latest close
strictly exceeds the previous one; in particular a history whose latest cross
is bearish never produces a notification intent. -/
theorem alert_emission_bullish_only (closes : List ℚ) (allow : Bool) :
    emitsAlert closes allow =
      (allow && isBullishAt closes && histRising closes && priceRising closes) ∧
    (emitsAlert closes allow = false ∨ crossOf closes ≠ some Cross.bearish) := by
  have heq : emitsAlert closes allow =
      (allow && isBullishAt closes && histRising closes && priceRising closes) := by
    cases hA : analyzeCore closes with
    | none => simp [emitsAlert, isBullishAt, histRising, priceRising, hA]
    | some res =>
      cases hc : res.cross with
      | none => simp [emitsAlert, isBullishAt, histRising, priceRising, hA, hc]
      | some c =>
        cases c with
        | bullish =>
          cases allow <;>
            simp [emitsAlert, isBullishAt, histRising, priceRising, hA, hc, Bool.and_assoc]
        | bearish =>
          cases allow <;>
            simp [emitsAlert, isBullishAt, histRising, priceRising, hA, hc]
  refine ⟨heq, ?_⟩
  by_cases hbear : crossOf closes = some Cross.bearish
  · left
    rw [heq]
    have hnb : isBullishAt closes = false := by
      cases hA : analyzeCore closes with
      | none => simp [isBullishAt, hA]
      | some res =>
        have hc : res.cross = some Cross.bearish := by
          rw [crossOf, hA] at hbear
          exact hbear
        simp [isBullishAt, hA, hc]
    rw [hnb]
    simp
  · right
    exact hbear

/-! ## C9: the momentum predicate -/

/-- C9: `checkMomentum` is a pure predicate whose first failing check (in the
order price-too-high, price-too-low, volume, move size, relative volume)
determines the reported reason, and which accepts exactly when every check
passes; absent data reports "No data". -/
theorem checkMomentum_characterization (d : StockData) :
    (checkMomentum (some d) = (false, "Price too high") ↔ d.price > MAX_PRICE) ∧
    (checkMomentum (some d) = (false, "Price too low") ↔
      ¬(d.price > MAX_PRICE) ∧ d.price < MIN_PRICE) ∧
    (checkMomentum (some d) = (false, "Volume too low") ↔
      ¬(d.price > MAX_PRICE) ∧ ¬(d.price < MIN_PRICE) ∧ d.volume < MIN_VOLUME) ∧
    (checkMomentum (some d) = (false, "Move too small") ↔
      ¬(d.price > MAX_PRICE) ∧ ¬(d.price < MIN_PRICE) ∧ ¬(d.volume < MIN_VOLUME) ∧
        |d.change_pct| < MIN_PRICE_CHANGE) ∧
    (checkMomentum (some d) = (false, "RelVol too low") ↔
      ¬(d.price > MAX_PRICE) ∧ ¬(d.price < MIN_PRICE) ∧ ¬(d.volume < MIN_VOLUME) ∧
        ¬(|d.change_pct| < MIN_PRICE_CHANGE) ∧ d.rel_volume < MIN_REL_VOLUME) ∧
    (checkMomentum (some d) = (true, "Momentum detected!") ↔
      ¬(d.price > MAX_PRICE) ∧ ¬(d.price < MIN_PRICE) ∧ ¬(d.volume < MIN_VOLUME) ∧
        ¬(|d.change_pct| < MIN_PRICE_CHANGE) ∧ ¬(d.rel_volume < MIN_REL_VOLUME)) ∧
    checkMomentum none = (false, "No data") := by
  unfold checkMomentum
  dsimp only
  split_ifs with h1 h2 h3 h4 h5 <;> simp_all

/-! ## C8: the backoff rate limiter -/

theorem wait_fst_of_rateLimited (s : RateLimiter) (h : s.rateLimited = true) (now1 now2 : ℤ) :
    s.backoffDelay ≤ (RateLimiter.wait s now1 now2).1 := by
  unfold RateLimiter.wait
  dsimp only
  rw [if_pos h]
  dsimp only
  cases hlr : s.lastRequest with
  | none => simp
  | some lr =>
    dsimp only
    split_ifs with h1 h2
    · simp
    · linarith
    · simp

/-- C8: `markRateLimited` turns the stored backoff into
`min(1.5 * backoffDelay, 30000)` and sets the flag — so the delay strictly
increases while below the 30-second cap and never exceeds the cap; the next
`wait` after a throttle report sleeps at least the prior `backoffDelay`;
`wait` itself never changes `backoffDelay`; and only `reset` restores the
initial 5000 ms value. -/
theorem backoff_growth_and_wait :
    (∀ s : RateLimiter,
      (RateLimiter.markRateLimited s).backoffDelay = min (s.backoffDelay * (3 / 2)) 30000 ∧
        (RateLimiter.markRateLimited s).rateLimited = true) ∧
    (∀ s : RateLimiter, 0 < s.backoffDelay → s.backoffDelay < 30000 →
      s.backoffDelay < (RateLimiter.markRateLimited s).backoffDelay) ∧
    (∀ s : RateLimiter, (RateLimiter.markRateLimited s).backoffDelay ≤ 30000) ∧
    (∀ (s : RateLimiter) (now1 now2 : ℤ), 0 ≤ s.backoffDelay → s.backoffDelay ≤ 30000 →
      s.backoffDelay ≤ (RateLimiter.wait (RateLimiter.markRateLimited s) now1 now2).1) ∧
    (∀ (s : RateLimiter) (now1 now2 : ℤ),
      (RateLimiter.wait s now1 now2).2.backoffDelay = s.backoffDelay) ∧
    (∀ s : RateLimiter, (RateLimiter.reset s).backoffDelay = 5000) ∧
    RateLimiter.init.backoffDelay = 5000 := by
  refine ⟨fun s => ⟨rfl, rfl⟩, ?_, ?_, ?_, ?_, fun s => rfl, rfl⟩
  · intro s h0 hcap
    show s.backoffDelay < min (s.backoffDelay * (3 / 2)) 30000
    exact lt_min (by linarith) hcap
  · intro s
    exact min_le_right _ _
  · intro s now1 now2 h0 hcap
    have hgrow : s.backoffDelay ≤ (RateLimiter.markRateLimited s).backoffDelay := by
      show s.backoffDelay ≤ min (s.backoffDelay * (3 / 2)) 30000
      exact le_min (by linarith) hcap
    have hwait := wait_fst_of_rateLimited (RateLimiter.markRateLimited s) rfl now1 now2
    linarith
  · intro s now1 now2
    unfold RateLimiter.wait
    dsimp only
    split <;> rfl

/-- Witness for C8: from the initial state (backoff 5000 ms), one throttle
report strictly increases the stored backoff. -/
theorem backoff_growth_and_wait_inst :
    RateLimiter.init.backoffDelay < (RateLimiter.markRateLimited RateLimiter.init).backoffDelay :=
  backoff_growth_and_wait.2.1 RateLimiter.init
    (by norm_num [RateLimiter.init]) (by norm_num [RateLimiter.init])

/-! ## C5: the alert gate verdict -/

theorem resetDailyCounts_lastAlertAt (s : AlertStore) (today : ℤ) :
    (resetDailyCounts s today).lastAlertAt = s.lastAlertAt := by
  unfold resetDailyCounts
  split <;> rfl

/-- C5: after the lazy day-rollover reset, `canAlert` allows exactly when the
ticker's daily count is strictly below the quota and either no prior alert
timestamp is stored or at least the 15-minute cooldown has elapsed (the
stored timestamp is assumed nonzero — JavaScript's `if (!last)` treats a `0`
timestamp like an absent one); in particular, with quota 2, three same-day
`canAlert → recordAlert` cycles yield allow, allow, deny. -/
theorem canAlert_characterization :
    (∀ (q : ℕ) (s : AlertStore) (t : String) (now today : ℤ),
      s.lastAlertAt t ≠ some 0 →
      ((canAlert q s t now today).1 = true ↔
        (resetDailyCounts s today).dailyAlerts t < q ∧
          (s.lastAlertAt t = none ∨
            ∃ v, s.lastAlertAt t = some v ∧
              (((now - v : ℤ)) : ℚ) / 60000 ≥ ALERT_COOLDOWN_MINUTES))) ∧
    ((cycleAlert 2 initStore "X" 1000000 0).1 = true ∧
      (cycleAlert 2 (cycleAlert 2 initStore "X" 1000000 0).2 "X" 2000000 0).1 = true ∧
      (cycleAlert 2 (cycleAlert 2 (cycleAlert 2 initStore "X" 1000000 0).2 "X" 2000000 0).2
        "X" 3000000 0).1 = false) := by
  constructor
  · intro q s t now today hne
    unfold canAlert
    dsimp only
    rw [resetDailyCounts_lastAlertAt s today]
    split_ifs with hq
    · simp only [Bool.false_eq_true, false_iff]
      intro hc
      exact absurd hc.1 (by omega)
    · cases hlv : s.lastAlertAt t with
      | none =>
        constructor
        · intro _
          exact ⟨by omega, Or.inl rfl⟩
        · intro _
          rfl
      | some v =>
        have hv0 : v ≠ 0 := by
          intro h0
          exact hne (by rw [hlv, h0])
        dsimp only
        rw [if_neg hv0]
        simp only [decide_eq_true_eq]
        constructor
        · intro hcond
          exact ⟨by omega, Or.inr ⟨v, rfl, hcond⟩⟩
        · rintro ⟨-, hcase⟩
          rcases hcase with h | ⟨w, hw, hcond⟩
          · exact Option.noConfusion h
          · injection hw with hvw
            rw [hvw]
            exact hcond
  · refine ⟨?_, ?_, ?_⟩ <;>
      norm_num [cycleAlert, canAlert, recordAlert, resetDailyCounts, initStore,
        ALERT_COOLDOWN_MINUTES, decide_eq_true_eq]

/-- Witness for C5: a fresh store allows a first alert (quota 2, day key 7,
no stored timestamp). -/
theorem canAlert_characterization_inst :
    (canAlert 2 initStore "X" 5 7).1 = true :=
  (canAlert_characterization.1 2 initStore "X" 5 7 (by simp [initStore])).mpr
    ⟨by norm_num [resetDailyCounts, initStore], Or.inl rfl⟩

/-! ## C10: day rollover clears only the counters -/

/-- C10: the lazy daily rollover (both in the MACD bot's alert gate and in the
momentum scanner) clears only the per-ticker daily counters and preserves the
last-alert timestamps, so a ticker still inside its cooldown window is denied
immediately after a day change even though its daily count is back to zero. -/
theorem rollover_preserves_cooldown :
    (∀ (s : AlertStore) (today : ℤ),
      (resetDailyCounts s today).lastAlertAt = s.lastAlertAt) ∧
    (∀ (s : AlertStore) (today : ℤ), today ≠ s.lastDailyReset →
      (resetDailyCounts s today).dailyAlerts = fun _ => 0) ∧
    (∀ (q : ℕ) (s : AlertStore) (t : String) (now today : ℤ) (v : ℤ),
      s.lastAlertAt t = some v → v ≠ 0 →
      (((now - v : ℤ)) : ℚ) / 60000 < ALERT_COOLDOWN_MINUTES →
      (canAlert q s t now today).1 = false) ∧
    (∀ (s : ScannerStore) (today : ℤ),
      (resetDailyCounters s today).alertHistory = s.alertHistory) ∧
    (∀ (s : ScannerStore) (today : ℤ), today ≠ s.lastReset →
      (resetDailyCounters s today).alertCounter = fun _ => 0) ∧
    (∀ (q : ℕ) (s : ScannerStore) (t : String) (now today : ℤ) (v : ℤ),
      s.alertHistory t = some v →
      (((now - v : ℤ)) : ℚ) / 60000 < ALERT_COOLDOWN_MINUTES →
      (canSendAlert q s t now today).1 = false) := by
  have hA : ∀ (s : AlertStore) (today : ℤ),
      (resetDailyCounts s today).lastAlertAt = s.lastAlertAt := by
    intro s today
    unfold resetDailyCounts
    split <;> rfl
  have hS : ∀ (s : ScannerStore) (today : ℤ),
      (resetDailyCounters s today).alertHistory = s.alertHistory := by
    intro s today
    unfold resetDailyCounters
    split <;> rfl
  refine ⟨hA, ?_, ?_, hS, ?_, ?_⟩
  · intro s today h
    unfold resetDailyCounts
    rw [if_pos h]
  · intro q s t now today v hv hv0 hcool
    unfold canAlert
    dsimp only
    split_ifs with hq
    · rfl
    · rw [hA s today, hv]
      dsimp only
      rw [if_neg hv0]
      simp only [decide_eq_false_iff_not]
      exact not_le.mpr hcool
  · intro s today h
    unfold resetDailyCounters
    rw [if_pos h]
  · intro q s t now today v hv hcool
    unfold canSendAlert
    dsimp only
    split_ifs with hq
    · rfl
    · rw [hS s today, hv]
      dsimp only
      rw [if_pos hcool]

/-- Witness for C10: a ticker alerted at time 100 is denied at time 200 (well
inside the 15-minute cooldown) right after the rollover to a new day key. -/
theorem rollover_preserves_cooldown_inst :
    (canAlert 20
      { lastAlertAt := fun _ => some 100, dailyAlerts := fun _ => 0, lastDailyReset := 0 }
      "X" 200 1).1 = false :=
  rollover_preserves_cooldown.2.2.1 20
    { lastAlertAt := fun _ => some 100, dailyAlerts := fun _ => 0, lastDailyReset := 0 }
    "X" 200 1 100 rfl (by decide) (by norm_num [ALERT_COOLDOWN_MINUTES])

end MomentumStockBot
